import Mathlib

/-!
Verification development for the calculator core of the SDDLabs repository
(client calculator feature: `calculatorEngine.ts`, `useCalculator.ts`,
`constants.ts`).

Modelling conventions (shallow embedding):
* JavaScript numbers are embedded as exact rationals (`ℚ`).  IEEE-754
  rounding of individual operations is not modelled; every arithmetic
  step is exact.  Constants such as `Number.EPSILON`, `Number.MIN_VALUE`
  and `Number.MAX_SAFE_INTEGER` keep their exact double values as
  rationals.
* JavaScript strings are embedded as `List Char`.
* `Number.prototype.toString` for a non-integer number is embedded as the
  exact decimal expansion of the rational, truncated to a bounded number
  of fractional digits (JavaScript prints the shortest round-trip decimal
  of the double; the two agree on every digit position both produce,
  which covers every digit the calculator's display truncation keeps).
* Fallible parsing (`parseFloat` returning `NaN`) is embedded with
  `Option`.
-/

namespace Calculator

attribute [local semireducible] Rat.add Rat.sub Rat.mul Rat.inv

set_option maxRecDepth 40000

/-- Strings are modelled as lists of characters. -/
abbrev Str := List Char

/-- Conversion from a Lean string literal to the model's string type. -/
def str (s : String) : Str := s.data

/-- Absolute value on the rational embedding of JS numbers (`Math.abs`). -/
def ratAbs (x : ℚ) : ℚ := if x < 0 then -x else x

/-- Floor of a rational to an integer (`Math.floor` on exact values). -/
def ratFloor (x : ℚ) : ℤ := x.num.fdiv (x.den : ℤ)

/-- Integer powers of ten as rationals. -/
def pow10 : ℤ → ℚ
  | Int.ofNat n => ((10 ^ n : ℕ) : ℚ)
  | Int.negSucc n => 1 / ((10 ^ (n + 1) : ℕ) : ℚ)

/-- Number of decimal digits of a natural number, fuel-based so that the
kernel can evaluate it. -/
def natLenAux : ℕ → ℕ → ℕ
  | 0, _ => 0
  | fuel + 1, n => if n < 10 then 1 else natLenAux fuel (n / 10) + 1

/-- Number of decimal digits of a natural number (`natLen 0 = 1`). -/
def natLen (n : ℕ) : ℕ := natLenAux (n + 1) n

/-- Decimal digit characters, fuel-based. -/
def natDigitsAux : ℕ → ℕ → Str
  | 0, _ => []
  | fuel + 1, n =>
    if n < 10 then [Nat.digitChar n]
    else natDigitsAux fuel (n / 10) ++ [Nat.digitChar (n % 10)]

/-- Decimal string of a natural number (`(0).toString() = "0"`). -/
def natToStr (n : ℕ) : Str := natDigitsAux (n + 1) n

/-- Decimal string of an integer, with a leading minus sign if negative. -/
def intToStr (i : ℤ) : Str :=
  if i < 0 then '-' :: natToStr i.natAbs else natToStr i.toNat

/-- Decimal exponent of a positive rational: the unique `e` with
`10 ^ e ≤ x < 10 ^ (e + 1)`.  Computed from the digit lengths of the
numerator and denominator, with a one-step correction. -/
def decExpPos (x : ℚ) : ℤ :=
  let a : ℤ := (natLen x.num.natAbs : ℤ) - 1
  let b : ℤ := (natLen x.den : ℤ) - 1
  let c : ℤ := a - b
  if x < pow10 c then c - 1 else c

/-- Value of `Number.EPSILON` (2⁻⁵²) as an exact rational. -/
def numberEpsilon : ℚ := 1 / ((2 ^ 52 : ℕ) : ℚ)

/-- Value of `Number.MIN_VALUE` (2⁻¹⁰⁷⁴, the smallest positive double)
as an exact rational. -/
def numberMinValue : ℚ := 1 / ((2 ^ 1074 : ℕ) : ℚ)

/-- In the exact-rational model every value is finite
(`Number.isFinite`). -/
def numberIsFinite (_ : ℚ) : Bool := true

/-- Embedding of `Number.prototype.toPrecision(p)` followed by `Number(...)`:
round to `p` significant decimal digits, ties away from zero (ECMA-262
picks the larger candidate on a tie). -/
def toPrecision (p : ℕ) (x : ℚ) : ℚ :=
  if x = 0 then 0
  else
    let ax := ratAbs x
    let e := decExpPos ax
    let scale := pow10 (e - (p - 1 : ℕ))
    let n := ratFloor (ax / scale + 1 / 2)
    let r := (n : ℚ) * scale
    if x < 0 then -r else r

/-- Embedding of `Number.prototype.toExponential(d)` for a nonzero value:
`d + 1` significant digits, formatted `m.dddd…e±k`. -/
def toExponential (d : ℕ) (x : ℚ) : Str :=
  let sgn : Str := if x < 0 then ['-'] else []
  let ax := ratAbs x
  let e := decExpPos ax
  let n := (ratFloor (ax / pow10 (e - (d : ℤ)) + 1 / 2)).toNat
  let ne : ℕ × ℤ := if (10 ^ (d + 1) : ℕ) ≤ n then (10 ^ d, e + 1) else (n, e)
  let ds := natToStr ne.1
  let mantissa : Str :=
    match ds with
    | [] => str "0"
    | c :: rest => if d = 0 then [c] else c :: '.' :: rest
  let expPart : Str :=
    if ne.2 < 0 then '-' :: natToStr (-ne.2).toNat else '+' :: natToStr ne.2.toNat
  sgn ++ mantissa ++ ['e'] ++ expPart

/-- Fractional decimal digits of `0 ≤ f < 1`, until the expansion
terminates or the fuel is exhausted. -/
def fracDigitsAux : ℕ → ℚ → Str
  | 0, _ => []
  | fuel + 1, f =>
    if f = 0 then []
    else
      let f10 := f * 10
      let d := (ratFloor f10).toNat
      Nat.digitChar d :: fracDigitsAux fuel (f10 - (d : ℚ))

/-- Embedding of `Number.prototype.toString()` for values reaching the
plain-decimal branch of the display formatter: sign, integer part, and
(for non-integers) a dot followed by the decimal expansion truncated to
20 fractional digits.  (JavaScript prints the shortest round-trip decimal
of the double and switches to exponential outside `[1e-6, 1e21)`; within
the formatter's plain branch and on every digit position the display
truncation keeps, the two agree.) -/
def ratToStr (x : ℚ) : Str :=
  if x = 0 then str "0"
  else
    let sgn : Str := if x < 0 then ['-'] else []
    let ax := ratAbs x
    let ip := (ratFloor ax).toNat
    let frac := ax - (ip : ℚ)
    if frac = 0 then sgn ++ natToStr ip
    else sgn ++ natToStr ip ++ ['.'] ++ fracDigitsAux 20 frac

/-! ### Constants (`src/client/src/features/calculator/constants.ts`) -/

/-- Maximum number of input digits allowed. -/
def MAX_INPUT_DIGITS : ℕ := 15

/-- Maximum display digits before using scientific format. -/
def MAX_DISPLAY_DIGITS : ℕ := 12

/-- Maximum decimal places to show. -/
def MAX_DECIMAL_PLACES : ℕ := 10

/-- `Number.MAX_SAFE_INTEGER`. -/
def MAX_SAFE_VALUE : ℚ := 9007199254740991

/-- `Number.MIN_SAFE_INTEGER`. -/
def MIN_SAFE_VALUE : ℚ := -9007199254740991

/-- Error message for division by zero. -/
def DIV_ZERO : Str := str "Cannot divide by zero"

/-- Error message for overflow. -/
def OVERFLOW : Str := str "Number too large"

/-- Error message for underflow. -/
def UNDERFLOW : Str := str "Number too small"

/-! ### Arithmetic engine (`calculatorEngine.ts`) -/

/-- The four calculator operators. -/
inductive Operator where
  | add
  | sub
  | mul
  | div
deriving DecidableEq, Repr

/-- Result of one binary arithmetic evaluation. -/
structure CalculationResult where
  value : ℚ
  error : Option Str
deriving DecidableEq, Repr

/-- Embedding of `fixFloatingPointPrecision`: round to 12 significant
digits and keep the rounded value when it is within a machine-epsilon
relative tolerance of the input. -/
def fixFloatingPointPrecision (value : ℚ) : ℚ :=
  let rounded := toPrecision 12 value
  if ratAbs (rounded - value) < numberEpsilon * ratAbs value then rounded
  else value

/-- The checks `calculate` performs after computing the raw result:
finiteness, overflow against `MAX_SAFE_VALUE`, underflow against
`Number.MIN_VALUE`, then floating-point precision correction. -/
def finishCalc (result : ℚ) : CalculationResult :=
  if ¬ numberIsFinite result then { value := 0, error := some OVERFLOW }
  else if MAX_SAFE_VALUE < ratAbs result then { value := 0, error := some OVERFLOW }
  else if result ≠ 0 ∧ ratAbs result < numberMinValue then
    { value := 0, error := some UNDERFLOW }
  else { value := fixFloatingPointPrecision result, error := none }

/-- Embedding of `calculate(a, b, operator)`. -/
def calculate (a b : ℚ) (op : Operator) : CalculationResult :=
  match op with
  | .add => finishCalc (a + b)
  | .sub => finishCalc (a - b)
  | .mul => finishCalc (a * b)
  | .div =>
    if b = 0 then { value := 0, error := some DIV_ZERO }
    else finishCalc (a / b)

/-- Embedding of `formatDisplay(value)`: `"0"` for zero, exponential
format outside `[1e-10, 1e12)`, plain digits for integers fitting the
display, and otherwise the decimal string truncated to the display
bounds with trailing zeros stripped, falling back to exponential when
still too long. -/
def formatDisplay (value : ℚ) : Str :=
  if value = 0 then str "0"
  else
    let absValue := ratAbs value
    if pow10 12 ≤ absValue ∨ (¬ absValue = 0 ∧ absValue < pow10 (-10)) then
      toExponential (MAX_DECIMAL_PLACES - 5) value
    else if value.den = 1 then
      let intStr := intToStr value.num
      if intStr.length ≤ MAX_DISPLAY_DIGITS then intStr
      else toExponential (MAX_DECIMAL_PLACES - 5) value
    else
      let formatted0 := ratToStr value
      let formatted :=
        if formatted0.contains '.' then
          let intPartStr := formatted0.takeWhile (fun c => c ≠ '.')
          let decPartStr := (formatted0.dropWhile (fun c => c ≠ '.')).tail
          let maxDecPlaces := (max 0 ((MAX_DISPLAY_DIGITS : ℤ) - intPartStr.length - 1)).toNat
          let truncatedDec := decPartStr.take (min maxDecPlaces MAX_DECIMAL_PLACES)
          let trimmedDec := (truncatedDec.reverse.dropWhile (fun c => c = '0')).reverse
          if trimmedDec = [] then intPartStr else intPartStr ++ '.' :: trimmedDec
        else formatted0
      if MAX_DISPLAY_DIGITS < formatted.length then
        toExponential (MAX_DECIMAL_PLACES - 5) value
      else formatted

/-- Numeric value of a string of decimal digits (most significant
first). -/
def digitsVal (s : Str) : ℕ := s.foldl (fun acc c => acc * 10 + (c.toNat - 48)) 0

/-- Embedding of `parseFloat`: optional sign, integer digits, optional
fractional part, optional well-formed exponent part; `none` when no
digits are found (`NaN`). -/
def jsParseFloat (s : Str) : Option ℚ :=
  let sign : ℚ := if s.head? = some '-' then -1 else 1
  let s1 : Str := if s.head? = some '-' ∨ s.head? = some '+' then s.tail else s
  let intDigits := s1.takeWhile Char.isDigit
  let s2 := s1.dropWhile Char.isDigit
  let fracDigits : Str :=
    if s2.head? = some '.' then s2.tail.takeWhile Char.isDigit else []
  let s3 : Str := if s2.head? = some '.' then s2.tail.dropWhile Char.isDigit else s2
  if intDigits = [] ∧ fracDigits = [] then none
  else
    let mantissa : ℚ :=
      sign * ((digitsVal intDigits : ℚ) +
        (digitsVal fracDigits : ℚ) / ((10 ^ fracDigits.length : ℕ) : ℚ))
    let expVal : ℤ :=
      if s3.head? = some 'e' ∨ s3.head? = some 'E' then
        let r := s3.tail
        let esign : ℤ := if r.head? = some '-' then -1 else 1
        let r2 : Str := if r.head? = some '-' ∨ r.head? = some '+' then r.tail else r
        let eds := r2.takeWhile Char.isDigit
        if eds = [] then 0 else esign * (digitsVal eds : ℤ)
      else 0
    some (mantissa * pow10 expVal)

/-- Embedding of `parseInput(input)`: empty string or lone minus give 0,
unparsable input gives 0, otherwise the parsed value. -/
def parseInput (input : Str) : ℚ :=
  if input = [] ∨ input = str "-" then 0
  else
    match jsParseFloat input with
    | none => 0
    | some q => q

/-- Embedding of `toggleSign(value)`: `startsWith('-')` is the head test
and `slice(1)` is the tail. -/
def toggleSign (value : Str) : Str :=
  if value = [] ∨ value = str "0" then str "0"
  else if value.head? = some '-' then value.tail
  else '-' :: value

/-- Embedding of `calculatePercent(value)`. -/
def calculatePercent (value : ℚ) : ℚ := fixFloatingPointPrecision (value / 100)

/-! ### Input state machine (`useCalculator.ts`) -/

/-- Embedding of `CalculatorState`. -/
structure CalculatorState where
  currentValue : Str
  previousValue : Option Str
  operator : Option Operator
  waitingForOperand : Bool
  expression : Str
  error : Option Str
deriving DecidableEq, Repr

/-- The canonical initial state. -/
def initialState : CalculatorState :=
  { currentValue := str "0", previousValue := none, operator := none,
    waitingForOperand := false, expression := [], error := none }

/-- Embedding of `CalculatorAction`. -/
inductive CalculatorAction where
  | digit (d : Char)
  | decimal
  | operator (op : Operator)
  | equals
  | clear
  | toggleSign
  | percent
  | backspace
deriving DecidableEq, Repr

/-- Display symbols for operators (`OPERATOR_SYMBOLS`). -/
def OPERATOR_SYMBOLS : Operator → Char
  | .add => '+'
  | .sub => '−'
  | .mul => '×'
  | .div => '÷'

/-- Embedding of `calculatorReducer(state, action)`. -/
def calculatorReducer (state : CalculatorState) (action : CalculatorAction) :
    CalculatorState :=
  match action with
  | .digit digit =>
    match state.error with
    | some _ =>
      { initialState with currentValue := if digit = '0' then str "0" else [digit] }
    | none =>
      if state.waitingForOperand then
        { state with currentValue := [digit], waitingForOperand := false }
      else
        let currentDigits := state.currentValue.filter (fun c => ¬(c = '-' ∨ c = '.'))
        if MAX_INPUT_DIGITS ≤ currentDigits.length then state
        else if state.currentValue = str "0" ∧ digit ≠ '0' then
          { state with currentValue := [digit] }
        else if state.currentValue = str "0" ∧ digit = '0' then state
        else { state with currentValue := state.currentValue ++ [digit] }
  | .decimal =>
    match state.error with
    | some _ => { initialState with currentValue := str "0." }
    | none =>
      if state.waitingForOperand then
        { state with currentValue := str "0.", waitingForOperand := false }
      else if state.currentValue.contains '.' then state
      else { state with currentValue := state.currentValue ++ ['.'] }
  | .operator nextOperator =>
    let currentValue := parseInput state.currentValue
    match state.error with
    | some _ =>
      { initialState with
        currentValue := state.currentValue
        previousValue := some state.currentValue
        operator := some nextOperator
        waitingForOperand := true
        expression := formatDisplay currentValue ++ [' ', OPERATOR_SYMBOLS nextOperator] }
    | none =>
      match state.previousValue, state.operator, state.waitingForOperand with
      | some prev, some pendingOp, false =>
        let previousValue := parseInput prev
        let result := calculate previousValue currentValue pendingOp
        match result.error with
        | some e => { state with error := some e, expression := [] }
        | none =>
          let formattedResult := formatDisplay result.value
          { state with
            currentValue := formattedResult
            previousValue := some formattedResult
            operator := some nextOperator
            waitingForOperand := true
            expression := formattedResult ++ [' ', OPERATOR_SYMBOLS nextOperator] }
      | _, _, _ =>
        let formattedCurrent := formatDisplay currentValue
        { state with
          previousValue := some formattedCurrent
          operator := some nextOperator
          waitingForOperand := true
          expression := formattedCurrent ++ [' ', OPERATOR_SYMBOLS nextOperator] }
  | .equals =>
    match state.error with
    | some _ => initialState
    | none =>
      match state.operator, state.previousValue with
      | some pendingOp, some prev =>
        let previousValue := parseInput prev
        let currentValue := parseInput state.currentValue
        let result := calculate previousValue currentValue pendingOp
        match result.error with
        | some e =>
          { state with
            error := some e
            expression := prev ++ [' ', OPERATOR_SYMBOLS pendingOp, ' '] ++ state.currentValue }
        | none =>
          { state with
            currentValue := formatDisplay result.value
            previousValue := none
            operator := none
            waitingForOperand := true
            expression := [] }
      | _, _ => state
  | .clear => initialState
  | .toggleSign =>
    match state.error with
    | some _ => state
    | none => { state with currentValue := toggleSign state.currentValue }
  | .percent =>
    match state.error with
    | some _ => state
    | none =>
      { state with
        currentValue := formatDisplay (calculatePercent (parseInput state.currentValue)) }
  | .backspace =>
    match state.error with
    | some _ => initialState
    | none =>
      if state.waitingForOperand then state
      else if state.currentValue.length = 1 ∨
          (state.currentValue.length = 2 ∧ state.currentValue.head? = some '-') then
        { state with currentValue := str "0" }
      else { state with currentValue := state.currentValue.dropLast }

/-- Applying a sequence of actions starting from the initial state. -/
def run (acts : List CalculatorAction) : CalculatorState :=
  acts.foldl calculatorReducer initialState

/-! ### Predicates used to state the specification's claims -/

/-- A character allowed in the body of a numeric string: a decimal digit
or the decimal point. -/
def goodChar (c : Char) : Bool := c.isDigit || c == '.'

/-- Removal of an optional leading minus sign. -/
def stripMinus (cv : Str) : Str :=
  if cv.head? = some '-' then cv.tail else cv

/-- The numeric-string grammar of the specification: an optional leading
minus sign, then a nonempty string of decimal digits containing at most
one decimal point. -/
def numericGrammar (cv : Str) : Bool :=
  !(stripMinus cv).isEmpty && (stripMinus cv).all goodChar &&
    decide ((stripMinus cv).count '.' ≤ 1)

/-- Agreement within the machine-epsilon-relative tolerance used by the
precision correction. -/
def withinPrecisionTol (x y : ℚ) : Prop :=
  ratAbs (y - x) < numberEpsilon * ratAbs x

instance (x y : ℚ) : Decidable (withinPrecisionTol x y) := by
  unfold withinPrecisionTol
  infer_instance

/-- The exact arithmetic result `calculate` computes before its range
checks. -/
def rawResult (a b : ℚ) : Operator → ℚ
  | .add => a + b
  | .sub => a - b
  | .mul => a * b
  | .div => a / b

/-! ### Helper lemmas about decimal printing and parsing -/

theorem digitsVal_nil : digitsVal [] = 0 := rfl

theorem digitsVal_append_singleton (s : Str) (c : Char) :
    digitsVal (s ++ [c]) = (digitsVal s) * 10 + (c.toNat - 48) := by
  simp [digitsVal, List.foldl_append]

theorem digitChar_toNat (d : ℕ) (h : d < 10) : (Nat.digitChar d).toNat - 48 = d := by
  interval_cases d <;> decide

theorem digitChar_isDigit (d : ℕ) (h : d < 10) : (Nat.digitChar d).isDigit = true := by
  interval_cases d <;> decide

theorem natDigitsAux_spec (fuel : ℕ) : ∀ m : ℕ, m < fuel →
    (∀ c ∈ natDigitsAux fuel m, c.isDigit = true) ∧
    digitsVal (natDigitsAux fuel m) = m ∧
    natDigitsAux fuel m ≠ [] ∧
    (∀ k, m < 10 ^ (k + 1) → (natDigitsAux fuel m).length ≤ k + 1) := by
  induction fuel with
  | zero => intro m hm; omega
  | succ f ih =>
    intro m hm
    by_cases h10 : m < 10
    · refine ⟨?_, ?_, ?_, ?_⟩ <;> simp only [natDigitsAux, if_pos h10]
      · intro c hc
        simp at hc
        subst hc
        exact digitChar_isDigit m h10
      · simpa [digitsVal] using digitChar_toNat m h10
      · simp
      · intro k _
        simp
    · have hm10 : m / 10 < f := by omega
      obtain ⟨ihd, ihv, ihne, ihlen⟩ := ih (m / 10) hm10
      refine ⟨?_, ?_, ?_, ?_⟩ <;> simp only [natDigitsAux, if_neg h10]
      · intro c hc
        rcases List.mem_append.mp hc with h | h
        · exact ihd c h
        · simp at h
          subst h
          exact digitChar_isDigit (m % 10) (Nat.mod_lt _ (by omega))
      · rw [digitsVal_append_singleton, ihv, digitChar_toNat _ (Nat.mod_lt _ (by omega))]
        omega
      · simp
      · intro k hk
        have hk1 : 1 ≤ k := by
          by_contra hk0
          interval_cases k <;> omega
        rw [List.length_append]
        have hlt : m / 10 < 10 ^ k := by
          have h1 : m < 10 ^ (k + 1) := hk
          have h2 : 10 * (m / 10) ≤ m := by omega
          have hpow : 10 ^ (k + 1) = 10 * 10 ^ k := by ring
          omega
        have := ihlen (k - 1) (by
          have hsub : k - 1 + 1 = k := by omega
          rw [hsub]
          exact hlt)
        simp only [List.length_cons, List.length_nil]
        omega

theorem natToStr_spec (m : ℕ) :
    (∀ c ∈ natToStr m, c.isDigit = true) ∧
    digitsVal (natToStr m) = m ∧
    natToStr m ≠ [] ∧
    (∀ k, m < 10 ^ (k + 1) → (natToStr m).length ≤ k + 1) :=
  natDigitsAux_spec (m + 1) m (Nat.lt_succ_self m)

theorem isDigit_ne (c : Char) (h : c.isDigit = true) :
    c ≠ '-' ∧ c ≠ '+' ∧ c ≠ '.' ∧ c ≠ 'e' ∧ c ≠ 'E' := by
  refine ⟨?_, ?_, ?_, ?_, ?_⟩ <;> intro hc <;> subst hc <;> simp at h

theorem jsParseFloat_digits (s : Str) (hne : s ≠ []) (hd : ∀ c ∈ s, c.isDigit = true) :
    jsParseFloat s = some ((digitsVal s : ℕ) : ℚ) := by
  obtain ⟨c, t, rfl⟩ := List.exists_cons_of_ne_nil hne
  have hc := hd c (by simp)
  obtain ⟨hcm, hcp, _, _, _⟩ := isDigit_ne c hc
  have hhead : (c :: t).head? = some c := rfl
  have htake : (c :: t).takeWhile Char.isDigit = c :: t :=
    List.takeWhile_eq_self_iff.mpr hd
  have hdrop : (c :: t).dropWhile Char.isDigit = [] :=
    List.dropWhile_eq_nil_iff.mpr hd
  simp [jsParseFloat, hhead, htake, hdrop, hcm, hcp, pow10, digitsVal_nil]

theorem jsParseFloat_neg_digits (s : Str) (hne : s ≠ [])
    (hd : ∀ c ∈ s, c.isDigit = true) :
    jsParseFloat ('-' :: s) = some (-((digitsVal s : ℕ) : ℚ)) := by
  obtain ⟨c, t, rfl⟩ := List.exists_cons_of_ne_nil hne
  have hhead : ('-' :: c :: t).head? = some '-' := rfl
  have htake : (c :: t).takeWhile Char.isDigit = c :: t :=
    List.takeWhile_eq_self_iff.mpr hd
  have hdrop : (c :: t).dropWhile Char.isDigit = [] :=
    List.dropWhile_eq_nil_iff.mpr hd
  simp [jsParseFloat, hhead, htake, hdrop, pow10, digitsVal_nil]

theorem parseInput_natToStr (m : ℕ) : parseInput (natToStr m) = (m : ℚ) := by
  obtain ⟨hdig, hval, hne, _⟩ := natToStr_spec m
  have hnm : natToStr m ≠ str "-" := by
    intro h
    have := hdig '-' (by rw [h]; simp [str])
    simp at this
  rw [parseInput, if_neg (by push_neg; exact ⟨hne, hnm⟩),
    jsParseFloat_digits _ hne hdig, hval]

theorem parseInput_intToStr (n : ℤ) : parseInput (intToStr n) = (n : ℚ) := by
  by_cases hneg : n < 0
  · obtain ⟨hdig, hval, hne, _⟩ := natToStr_spec n.natAbs
    rw [intToStr, if_pos hneg, parseInput, if_neg, jsParseFloat_neg_digits _ hne hdig]
    · rw [hval]
      show -((n.natAbs : ℕ) : ℚ) = (n : ℚ)
      rw [Int.cast_natAbs, abs_of_neg hneg]
      push_cast
      ring
    · push_neg
      refine ⟨by simp, ?_⟩
      intro h
      have h2 : natToStr n.natAbs = [] := by
        have := congrArg List.tail h
        simpa [str] using this
      exact hne h2
  · rw [intToStr, if_neg hneg, parseInput_natToStr]
    push_neg at hneg
    exact_mod_cast congrArg (fun z : ℤ => (z : ℚ)) (Int.toNat_of_nonneg hneg)

theorem ratAbs_intCast (n : ℤ) : ratAbs (n : ℚ) = ((n.natAbs : ℕ) : ℚ) := by
  rw [Int.cast_natAbs]
  by_cases h : n < 0
  · have hq : (n : ℚ) < 0 := by exact_mod_cast h
    rw [ratAbs, if_pos hq, abs_of_neg h]
    push_cast
    ring
  · push_neg at h
    have hq : ¬ ((n : ℚ) < 0) := by
      push_neg
      exact_mod_cast h
    rw [ratAbs, if_neg hq, abs_of_nonneg h]

theorem formatDisplay_int (n : ℤ) (h0 : n ≠ 0)
    (hlo : -99999999999 ≤ n) (hhi : n ≤ 999999999999) :
    formatDisplay (n : ℚ) = intToStr n := by
  have hq0 : (n : ℚ) ≠ 0 := Int.cast_ne_zero.mpr h0
  have habs : ratAbs (n : ℚ) = ((n.natAbs : ℕ) : ℚ) := ratAbs_intCast n
  have habs_le : n.natAbs ≤ 999999999999 := by omega
  have habs_ge : 1 ≤ n.natAbs := by omega
  have hp12 : pow10 12 = ((10 ^ 12 : ℕ) : ℚ) := rfl
  have hpm10 : pow10 (-10) = 1 / ((10 ^ 10 : ℕ) : ℚ) := rfl
  have hcond1 : ¬ (pow10 12 ≤ ratAbs (n : ℚ) ∨
      (¬ ratAbs (n : ℚ) = 0 ∧ ratAbs (n : ℚ) < pow10 (-10))) := by
    push_neg
    constructor
    · rw [hp12, habs, ← not_le]
      intro hle
      have := Nat.cast_le (α := ℚ).mp hle  -- hmm direction
      omega
    · intro _
      rw [hpm10, habs]
      have h1 : (1 : ℚ) ≤ (n.natAbs : ℚ) := by exact_mod_cast habs_ge
      have h2 : (1 : ℚ) / ((10 ^ 10 : ℕ) : ℚ) ≤ 1 := by
        rw [div_le_one (by positivity)]
        exact_mod_cast Nat.one_le_iff_ne_zero.mpr (by positivity)
      linarith
  have hden : ((n : ℚ)).den = 1 := Rat.den_intCast n
  have hnum : ((n : ℚ)).num = n := Rat.num_intCast n
  have hlen : (intToStr n).length ≤ MAX_DISPLAY_DIGITS := by
    rw [intToStr, MAX_DISPLAY_DIGITS]
    by_cases hneg : n < 0
    · rw [if_pos hneg]
      simp only [List.length_cons]
      have hb : n.natAbs < 10 ^ 11 := by
        have : (10 : ℕ) ^ 11 = 100000000000 := by norm_num
        omega
      have := (natToStr_spec n.natAbs).2.2.2 10 hb
      omega
    · rw [if_neg hneg]
      have hb : n.toNat < 10 ^ 12 := by
        have : (10 : ℕ) ^ 12 = 1000000000000 := by norm_num
        omega
      have := (natToStr_spec n.toNat).2.2.2 11 hb
      omega
  rw [formatDisplay, if_neg hq0]
  simp only [hcond1, if_false, hden, if_pos rfl, hnum, if_pos hlen, if_true]

theorem numericGrammar_iff (cv : Str) : numericGrammar cv = true ↔
    stripMinus cv ≠ [] ∧ (∀ c ∈ stripMinus cv, goodChar c = true) ∧
    (stripMinus cv).count '.' ≤ 1 := by
  simp [numericGrammar, List.all_eq_true, List.isEmpty_iff]
  tauto

theorem goodChar_ne_minus (c : Char) (h : goodChar c = true) : c ≠ '-' := by
  intro hc
  subst hc
  simp [goodChar] at h

theorem stripMinus_nil : stripMinus [] = [] := rfl

theorem stripMinus_cons_minus (t : Str) : stripMinus ('-' :: t) = t := rfl

theorem stripMinus_cons_of_ne (c : Char) (t : Str) (h : c ≠ '-') :
    stripMinus (c :: t) = c :: t := by
  rw [stripMinus, if_neg]
  simp [h]

theorem stripMinus_append (cv l : Str) (h : cv ≠ []) :
    stripMinus (cv ++ l) = stripMinus cv ++ l := by
  obtain ⟨c, t, rfl⟩ := List.exists_cons_of_ne_nil h
  by_cases hc : c = '-'
  · subst hc
    simp [stripMinus_cons_minus]
  · rw [List.cons_append, stripMinus_cons_of_ne c t hc, stripMinus_cons_of_ne c (t ++ l) hc]
    rfl

theorem grammar_ne_nil (cv : Str) (h : numericGrammar cv = true) : cv ≠ [] := by
  intro hnil
  subst hnil
  simp [numericGrammar, stripMinus_nil] at h

theorem grammar_append_digit (cv : Str) (d : Char)
    (h : numericGrammar cv = true) (hd : d.isDigit = true) :
    numericGrammar (cv ++ [d]) = true := by
  obtain ⟨hne, hall, hcnt⟩ := (numericGrammar_iff cv).mp h
  rw [numericGrammar_iff, stripMinus_append cv [d] (grammar_ne_nil cv h)]
  refine ⟨by simp, ?_, ?_⟩
  · intro c hc
    rcases List.mem_append.mp hc with h1 | h1
    · exact hall c h1
    · simp at h1
      subst h1
      simp [goodChar, hd]
  · rw [List.count_append]
    have : List.count '.' [d] = 0 := by
      rw [List.count_eq_zero]
      intro hm
      simp at hm
      subst hm
      simp at hd
    omega

theorem grammar_append_dot (cv : Str)
    (h : numericGrammar cv = true) (hnc : ¬ cv.contains '.' = true) :
    numericGrammar (cv ++ ['.']) = true := by
  obtain ⟨hne, hall, hcnt⟩ := (numericGrammar_iff cv).mp h
  rw [numericGrammar_iff, stripMinus_append cv ['.'] (grammar_ne_nil cv h)]
  have hcnt0 : (stripMinus cv).count '.' = 0 := by
    rw [List.count_eq_zero]
    intro hm
    apply hnc
    have hmem : '.' ∈ cv := by
      rcases List.exists_cons_of_ne_nil (grammar_ne_nil cv h) with ⟨c, t, rfl⟩
      by_cases hc : c = '-'
      · subst hc
        rw [stripMinus_cons_minus] at hm
        exact List.mem_cons_of_mem _ hm
      · rw [stripMinus_cons_of_ne c t hc] at hm
        exact hm
    simp [List.contains, List.elem_eq_mem, hmem]
  refine ⟨by simp, ?_, ?_⟩
  · intro c hc
    rcases List.mem_append.mp hc with h1 | h1
    · exact hall c h1
    · simp at h1
      subst h1
      simp [goodChar]
  · rw [List.count_append, hcnt0]
    simp

theorem grammar_zero : numericGrammar (str "0") = true := by decide

theorem grammar_toggleSign (cv : Str) (h : numericGrammar cv = true) :
    numericGrammar (toggleSign cv) = true := by
  obtain ⟨hne, hall, hcnt⟩ := (numericGrammar_iff cv).mp h
  rw [toggleSign]
  by_cases h0 : cv = [] ∨ cv = str "0"
  · rw [if_pos h0]
    exact grammar_zero
  · rw [if_neg h0]
    obtain ⟨c, t, rfl⟩ := List.exists_cons_of_ne_nil (grammar_ne_nil cv h)
    by_cases hc : c = '-'
    · subst hc
      rw [if_pos (show ('-' :: t).head? = some '-' from rfl)]
      rw [stripMinus_cons_minus] at hne hall hcnt
      show numericGrammar t = true
      obtain ⟨c2, t2, rfl⟩ := List.exists_cons_of_ne_nil hne
      have hgood := hall c2 (by simp)
      rw [numericGrammar_iff, stripMinus_cons_of_ne c2 t2 (goodChar_ne_minus c2 hgood)]
      exact ⟨by simp, hall, hcnt⟩
    · rw [if_neg (by simp [hc]), numericGrammar_iff, stripMinus_cons_minus]
      rw [stripMinus_cons_of_ne c t hc] at hne hall hcnt
      exact ⟨hne, hall, hcnt⟩

theorem grammar_dropLast (cv : Str) (h : numericGrammar cv = true)
    (hlen : ¬ (cv.length = 1 ∨ (cv.length = 2 ∧ cv.head? = some '-'))) :
    numericGrammar cv.dropLast = true := by
  obtain ⟨hne, hall, hcnt⟩ := (numericGrammar_iff cv).mp h
  push_neg at hlen
  obtain ⟨hlen1, hlen2⟩ := hlen
  obtain ⟨c, t, rfl⟩ := List.exists_cons_of_ne_nil (grammar_ne_nil cv h)
  by_cases hc : c = '-'
  · subst hc
    rw [stripMinus_cons_minus] at hne hall hcnt
    have hlent : 2 ≤ t.length := by
      have h2 : ('-' :: t).length ≠ 2 := fun hl => absurd rfl (hlen2 hl)
      have h1 : ('-' :: t).length ≠ 1 := hlen1
      simp only [List.length_cons] at h1 h2
      have ht1 : t ≠ [] := hne
      have := List.length_pos.mpr ht1
      omega
    obtain ⟨c2, t2, rfl⟩ := List.exists_cons_of_ne_nil hne
    have hdl : ('-' :: c2 :: t2).dropLast = '-' :: (c2 :: t2).dropLast := by
      simp [List.dropLast_cons₂]
    rw [hdl, numericGrammar_iff, stripMinus_cons_minus]
    have hsub : (c2 :: t2).dropLast.Sublist (c2 :: t2) := List.dropLast_sublist _
    refine ⟨?_, ?_, ?_⟩
    · intro hnil
      have h1 := congrArg List.length hnil
      rw [List.length_dropLast] at h1
      simp only [List.length_cons, List.length_nil] at h1 hlent
      omega
    · intro x hx
      exact hall x (hsub.subset hx)
    · exact le_trans (hsub.count_le '.') hcnt
  · rw [stripMinus_cons_of_ne c t hc] at hne hall hcnt
    have hlent : 1 ≤ t.length := by
      have h1 : (c :: t).length ≠ 1 := hlen1
      simp only [List.length_cons] at h1
      omega
    have ht : t ≠ [] := by
      intro ht
      rw [ht] at hlent
      simp at hlent
    obtain ⟨c2, t2, rfl⟩ := List.exists_cons_of_ne_nil ht
    have hdl : (c :: c2 :: t2).dropLast = c :: (c2 :: t2).dropLast := by
      simp [List.dropLast_cons₂]
    rw [hdl, numericGrammar_iff, stripMinus_cons_of_ne c _ hc]
    have hsub : (c :: (c2 :: t2).dropLast).Sublist (c :: c2 :: t2) := by
      exact List.Sublist.cons₂ c (List.dropLast_sublist _)
    refine ⟨by simp, ?_, ?_⟩
    · intro x hx
      exact hall x (hsub.subset hx)
    · exact le_trans (hsub.count_le '.') hcnt

theorem grammar_single_digit (d : Char) (hd : d.isDigit = true) :
    numericGrammar [d] = true := by
  rw [numericGrammar_iff, stripMinus_cons_of_ne d [] (fun h => by subst h; simp at hd)]
  refine ⟨by simp, ?_, ?_⟩
  · intro c hc
    simp at hc
    subst hc
    simp [goodChar, hd]
  · rw [List.count_eq_zero.mpr]
    · omega
    · intro hm
      simp at hm
      subst hm
      simp at hd

/-- Entry actions: digit keys '0'-'9', the decimal point, sign toggle,
backspace, and clear — the actions that edit `currentValue` directly
without routing a computed value through the display formatter. -/
def isEntryAction : CalculatorAction → Bool
  | .digit d => d.isDigit
  | .decimal => true
  | .clear => true
  | .toggleSign => true
  | .backspace => true
  | _ => false

/-- Invariant maintained by entry actions: no error, not awaiting an
operand, and a grammatical `currentValue`. -/
def entryInv (s : CalculatorState) : Prop :=
  s.error = none ∧ s.waitingForOperand = false ∧ numericGrammar s.currentValue = true

theorem entryInv_step (s : CalculatorState) (a : CalculatorAction)
    (ha : isEntryAction a = true) (h : entryInv s) : entryInv (calculatorReducer s a) := by
  obtain ⟨cv, pv, op, w, ex, er⟩ := s
  obtain ⟨herr, hw, hg⟩ := h
  simp only at herr hw hg
  subst herr hw
  cases a with
  | digit d =>
    simp only [isEntryAction] at ha
    simp only [calculatorReducer, Bool.false_eq_true, if_false]
    split
    · exact ⟨rfl, rfl, hg⟩
    · split
      · exact ⟨rfl, rfl, grammar_single_digit d ha⟩
      · split
        · exact ⟨rfl, rfl, hg⟩
        · exact ⟨rfl, rfl, grammar_append_digit cv d hg ha⟩
  | decimal =>
    simp only [calculatorReducer, Bool.false_eq_true, if_false]
    split
    · next hcont => exact ⟨rfl, rfl, hg⟩
    · next hcont => exact ⟨rfl, rfl, grammar_append_dot cv hg hcont⟩
  | clear => exact ⟨rfl, rfl, grammar_zero⟩
  | toggleSign =>
    exact ⟨rfl, rfl, grammar_toggleSign cv hg⟩
  | backspace =>
    simp only [calculatorReducer, Bool.false_eq_true, if_false]
    split
    · exact ⟨rfl, rfl, grammar_zero⟩
    · next hlen => exact ⟨rfl, rfl, grammar_dropLast cv hg hlen⟩
  | operator o => simp [isEntryAction] at ha
  | equals => simp [isEntryAction] at ha
  | percent => simp [isEntryAction] at ha

theorem entryInv_run (acts : List CalculatorAction)
    (h : ∀ a ∈ acts, isEntryAction a = true) :
    entryInv (run acts) := by
  have key : ∀ (l : List CalculatorAction) (s : CalculatorState),
      (∀ a ∈ l, isEntryAction a = true) → entryInv s →
      entryInv (l.foldl calculatorReducer s) := by
    intro l
    induction l with
    | nil => intro s _ hs; exact hs
    | cons a t ih =>
      intro s hl hs
      exact ih _ (fun x hx => hl x (List.mem_cons_of_mem a hx))
        (entryInv_step s a (hl a (by simp)) hs)
  exact key acts initialState h ⟨rfl, rfl, grammar_zero⟩

/-! ### The operator/previous-value pairing invariant -/

/-- The pairing invariant of the state machine: the pending operator is
absent exactly when the stored previous value is absent. -/
def pairedInv (s : CalculatorState) : Prop :=
  (s.operator = none ↔ s.previousValue = none)

theorem pairedInv_step (s : CalculatorState) (a : CalculatorAction)
    (h : pairedInv s) : pairedInv (calculatorReducer s a) := by
  obtain ⟨cv, pv, op, w, ex, er⟩ := s
  simp only [pairedInv] at h ⊢
  cases a <;> cases er <;> cases pv <;> cases op <;> cases w <;>
    simp_all only [calculatorReducer, initialState] <;>
    (try (repeat' split)) <;> simp_all

theorem pairedInv_run (acts : List CalculatorAction) : pairedInv (run acts) := by
  have key : ∀ (l : List CalculatorAction) (s : CalculatorState), pairedInv s →
      pairedInv (l.foldl calculatorReducer s) := by
    intro l
    induction l with
    | nil => intro s hs; exact hs
    | cons a t ih => intro s hs; exact ih _ (pairedInv_step s a hs)
  exact key acts initialState (by simp [pairedInv, initialState])

/-! ### Settled claims -/

/-- C1, counterexample: after `Digit '5', Operator Add` the state has a
pending operator and `waitingForOperand = true`, yet pressing Equals
changes the state, so the press is not a no-op. -/
theorem equals_awaiting_operand_not_noop_cex :
    (run [.digit '5', .operator .add]).operator = some .add ∧
    (run [.digit '5', .operator .add]).waitingForOperand = true ∧
    run [.digit '5', .operator .add, .equals] ≠ run [.digit '5', .operator .add] := by
  decide

/-- C1, amended: pressing Equals with a pending operator while the second
operand is still awaited is not a no-op: the reducer evaluates
`previousValue op currentValue` with `currentValue` still holding the
first operand, so `Digit '5', Operator Add, Equals` ends with
`currentValue = "10"` and the pending operator and previous value
cleared. -/
theorem equals_awaiting_operand_evaluates :
    run [.digit '5', .operator .add, .equals] =
      { currentValue := str "10", previousValue := none, operator := none,
        waitingForOperand := true, expression := [], error := none } := by
  decide

/-- C2, counterexample: for `a = 9007199254740991`, `b = 2 ≠ 0` and
multiplication, `evaluate` returns the overflow error "Number too
large", so the error field is not absent for every pair with `b ≠ 0`. -/
theorem evaluate_overflow_cex :
    (2 : ℚ) ≠ 0 ∧
    calculate 9007199254740991 2 .mul = { value := 0, error := some OVERFLOW } ∧
    OVERFLOW = str "Number too large" := by
  decide

/-- C2, amended: for every pair `a, b` with `b ≠ 0` and every one of the
four operators, the error field of `evaluate(a, b, op)` is absent
provided the exact result is at most `MAX_SAFE_VALUE` in magnitude and
is zero or at least `Number.MIN_VALUE` in magnitude (the latter bound is
automatic in double arithmetic, where no nonzero value is smaller). -/
theorem evaluate_no_error_within_range (a b : ℚ) (op : Operator)
    (hb : b ≠ 0)
    (hov : ratAbs (rawResult a b op) ≤ MAX_SAFE_VALUE)
    (hun : rawResult a b op = 0 ∨ numberMinValue ≤ ratAbs (rawResult a b op)) :
    (calculate a b op).error = none := by
  cases op <;> simp only [rawResult] at hov hun <;>
    simp only [calculate, finishCalc, numberIsFinite, not_true, if_false, if_neg hb] <;>
    rw [if_neg (not_lt.mpr hov), if_neg] <;>
    rintro ⟨hne, hlt⟩ <;> rcases hun with h0 | hge <;>
      first
        | exact hne h0
        | exact absurd hlt (not_lt.mpr hge)

/-- Witness for the amended C2 theorem at `a = 1`, `b = 2`, addition. -/
theorem evaluate_no_error_within_range_witness :
    ((2 : ℚ) ≠ 0 ∧ ratAbs (rawResult 1 2 .add) ≤ MAX_SAFE_VALUE ∧
      (rawResult 1 2 .add = 0 ∨ numberMinValue ≤ ratAbs (rawResult 1 2 .add))) ∧
    (calculate 1 2 .add).error = none :=
  ⟨⟨by decide, by decide, Or.inr (by decide)⟩,
    evaluate_no_error_within_range 1 2 .add (by decide) (by decide) (Or.inr (by decide))⟩

/-- C3, counterexample: the state reached by thirteen `Digit '9'`
actions, `Operator Add`, `Equals` has `currentValue = "2.00000e+13"` — a
scientific-format string containing the exponent marker, which does not
match the numeric-string grammar and is not the sentinel "0". -/
theorem currentValue_grammar_cex :
    (run (List.replicate 13 (.digit '9') ++ [.operator .add, .equals])).currentValue =
      str "2.00000e+13" ∧
    numericGrammar (str "2.00000e+13") = false ∧
    str "2.00000e+13" ≠ str "0" ∧
    (str "2.00000e+13").contains 'e' = true := by
  decide

/-- C3, amended: `currentValue` matches the numeric-string grammar in
every state reachable using only the entry actions — digits '0'-'9',
decimal point, sign toggle, backspace, clear; once Operator, Equals or
Percent route a computed value through the display formatter, a
scientific-format string with an exponent marker can become
`currentValue` (see the counterexample). -/
theorem currentValue_grammar_entry_actions (acts : List CalculatorAction)
    (h : ∀ a ∈ acts, isEntryAction a = true) :
    numericGrammar (run acts).currentValue = true :=
  (entryInv_run acts h).2.2

/-- Witness for the amended C3 theorem at a concrete entry-action
sequence. -/
theorem currentValue_grammar_entry_actions_witness :
    (∀ a ∈ ([.digit '1', .decimal, .digit '5', .toggleSign, .backspace] :
        List CalculatorAction), isEntryAction a = true) ∧
    numericGrammar (run [.digit '1', .decimal, .digit '5', .toggleSign,
      .backspace]).currentValue = true :=
  ⟨by decide, currentValue_grammar_entry_actions _ (by decide)⟩

/-- C4: for every number `a` (including 0), `evaluate(a, 0, Divide)`
returns the `DivisionByZero` error with message "Cannot divide by zero"
and the placeholder value 0. -/
theorem divide_by_zero_error (a : ℚ) :
    calculate a 0 .div = { value := 0, error := some DIV_ZERO } ∧
    DIV_ZERO = str "Cannot divide by zero" :=
  ⟨by simp [calculate], rfl⟩

/-- C5: the precision correction maps the double artifact
`0.30000000000000004` (exactly 1351079888211149/2⁵²) to 0.3, and the
action sequence `0.1 + 0.2 =` ends with `currentValue = "0.3"`. -/
theorem precision_correction_examples :
    fixFloatingPointPrecision ((1351079888211149 : ℚ) / 4503599627370496) = 3 / 10 ∧
    (run [.digit '0', .decimal, .digit '1', .operator .add,
          .digit '0', .decimal, .digit '2', .equals]).currentValue = str "0.3" := by
  decide

/-- C6: Clear is unconditional and idempotent: from any state (error
states included) it yields the canonical initial state — `currentValue`
"0" and every other field empty or absent — and applying it twice yields
the same state as applying it once. -/
theorem clear_resets_and_idempotent (s : CalculatorState) :
    calculatorReducer s .clear = initialState ∧
    initialState = { currentValue := str "0", previousValue := none, operator := none,
                     waitingForOperand := false, expression := [], error := none } ∧
    calculatorReducer (calculatorReducer s .clear) .clear = calculatorReducer s .clear :=
  ⟨rfl, rfl, rfl⟩

/-- C7, counterexample: `x = 1/3` is within the safe range, but the
display formatter truncates it to "0.3333333333", whose parse differs
from `x` by 1/(3·10¹⁰) — beyond the machine-epsilon-relative
precision-correction tolerance. -/
theorem roundtrip_tolerance_cex :
    ratAbs (1 / 3 : ℚ) ≤ MAX_SAFE_VALUE ∧
    parseInput (formatDisplay (1 / 3 : ℚ)) = 3333333333 / 10000000000 ∧
    ¬ withinPrecisionTol (1 / 3 : ℚ) (parseInput (formatDisplay (1 / 3 : ℚ))) := by
  decide

/-- C7, amended: the parse/format round trip is exact (not merely within
tolerance) for integer-valued inputs whose plain decimal string fits the
12-digit display; for non-integers the display truncation to at most 10
decimal places can push the round-trip error far beyond the
precision-correction tolerance (see the counterexample). -/
theorem roundtrip_exact_on_display_integers (n : ℤ)
    (hlo : -99999999999 ≤ n) (hhi : n ≤ 999999999999) :
    parseInput (formatDisplay (n : ℚ)) = (n : ℚ) := by
  by_cases h0 : n = 0
  · subst h0
    show parseInput (formatDisplay ((0 : ℤ) : ℚ)) = ((0 : ℤ) : ℚ)
    decide
  · rw [formatDisplay_int n h0 hlo hhi, parseInput_intToStr]

/-- Witness for the amended C7 theorem at `n = -42`. -/
theorem roundtrip_exact_on_display_integers_witness :
    ((-99999999999 : ℤ) ≤ -42 ∧ (-42 : ℤ) ≤ 999999999999) ∧
    parseInput (formatDisplay ((-42 : ℤ) : ℚ)) = ((-42 : ℤ) : ℚ) :=
  ⟨⟨by decide, by decide⟩,
    roundtrip_exact_on_display_integers (-42) (by decide) (by decide)⟩

/-- A concrete state with fifteen digits already entered, used by the C8
witness. -/
def fifteenDigitState : CalculatorState :=
  { currentValue := str "123456789012345", previousValue := none, operator := none,
    waitingForOperand := false, expression := [], error := none }

/-- C8: in a state with no error, not awaiting an operand, and at least
15 digit characters in `currentValue` (ignoring '-' and '.'), a Digit
action leaves the state completely unchanged, for every digit. -/
theorem digit_limit_ignored (s : CalculatorState) (d : Char)
    (herr : s.error = none) (hw : s.waitingForOperand = false)
    (hlen : MAX_INPUT_DIGITS ≤
      (s.currentValue.filter (fun c => ¬(c = '-' ∨ c = '.'))).length) :
    calculatorReducer s (.digit d) = s := by
  obtain ⟨cv, pv, op, w, ex, er⟩ := s
  simp only at herr hw hlen
  subst herr hw
  simp only [calculatorReducer, Bool.false_eq_true, if_false, if_pos hlen]

/-- Witness for the C8 theorem at a 15-digit state and digit '7'. -/
theorem digit_limit_ignored_witness :
    (fifteenDigitState.error = none ∧ fifteenDigitState.waitingForOperand = false ∧
      MAX_INPUT_DIGITS ≤ (fifteenDigitState.currentValue.filter
        (fun c => ¬(c = '-' ∨ c = '.'))).length) ∧
    calculatorReducer fifteenDigitState (.digit '7') = fifteenDigitState :=
  ⟨⟨rfl, rfl, by decide⟩,
    digit_limit_ignored fifteenDigitState '7' rfl rfl (by decide)⟩

/-- C9: in every state reachable from the initial state by any sequence
of actions, the pending operator is absent exactly when the stored
previous value is absent. -/
theorem operator_previousValue_paired (acts : List CalculatorAction) :
    (run acts).operator = none ↔ (run acts).previousValue = none :=
  pairedInv_run acts

/-- Witness for the C4 theorem at `a = 5`. -/
theorem divide_by_zero_error_witness :
    calculate 5 0 .div = { value := 0, error := some DIV_ZERO } ∧
    DIV_ZERO = str "Cannot divide by zero" :=
  divide_by_zero_error 5

/-- Witness for the C6 theorem at the state reached by `Digit '3'`. -/
theorem clear_resets_and_idempotent_witness :
    calculatorReducer (run [.digit '3']) .clear = initialState ∧
    initialState = { currentValue := str "0", previousValue := none, operator := none,
                     waitingForOperand := false, expression := [], error := none } ∧
    calculatorReducer (calculatorReducer (run [.digit '3']) .clear) .clear =
      calculatorReducer (run [.digit '3']) .clear :=
  clear_resets_and_idempotent (run [.digit '3'])

/-- Witness for the C9 theorem at the sequence `Digit '7', Operator Mul`. -/
theorem operator_previousValue_paired_witness :
    (run [.digit '7', .operator .mul]).operator = none ↔
      (run [.digit '7', .operator .mul]).previousValue = none :=
  operator_previousValue_paired [.digit '7', .operator .mul]

end Calculator
